import Mathlib

/-!
Verification of the simple-parser front end: a shallow embedding of the
tokenizer (folder/token.py), the type descriptors (folder/types.py) and the
recursive-descent parser (folder/parser.py), together with theorems settling
the frozen claims about the specification.
-/

set_option maxRecDepth 4000

namespace SimpleParser

/-! ## Type descriptors (folder/types.py) -/

/-- Python exceptions that the embedded code can raise. -/
inductive PyErr where
  | valueError
  | assertionError (msg : String)
  deriving DecidableEq, Repr

mutual

/-- `UnqualifiedType` variants from folder/types.py: Void, Integer, Floating,
Pointer, Array, Tuple, Function. -/
inductive UType where
  | void
  | integer (width : Nat) (signed : Bool)
  | floating (width : Nat)
  | pointer (underlying : QType)
  | array (underlying : QType) (count : Nat)
  | tupleT (types : List QType)
  | function (returnType : QType) (arguments : List QType)

/-- `QualifiedType`: an unqualified type plus a flags bitset
(bit 0 = Reference, bit 1 = Constant). -/
inductive QType where
  | qmk (unqualified : UType) (flags : Nat)

end

/-- `QualifiedType.Reference` flag bit. -/
def referenceFlag : Nat := 1

/-- `QualifiedType.is_reference`: tests bit 0 of the flags. -/
def QType.isReference : QType → Bool
  | .qmk _ flags => (flags &&& 1) != 0

/-- `QualifiedType.add_flags`: returns a new qualified type with extra flags. -/
def QType.addFlags : QType → Nat → QType
  | .qmk u flags, extra => .qmk u (flags ||| extra)

mutual

/-- `sizeof` for unqualified types, translated per variant from types.py. -/
def UType.sizeof : UType → Nat
  | .void => 0
  | .integer w _ => w
  | .floating w => w
  | .pointer _ => 8
  | .array u c => QType.sizeof u * c
  | .tupleT ts => tupleSizeAcc 0 ts
  | .function _ _ => 0

/-- `QualifiedType.sizeof` delegates to the unqualified type. -/
def QType.sizeof : QType → Nat
  | .qmk u _ => UType.sizeof u

/-- The size accumulation loop of `TupleType.__init__`:
`size += 8 if tp.is_reference else tp.sizeof()`. -/
def tupleSizeAcc : Nat → List QType → Nat
  | acc, [] => acc
  | acc, t :: ts => tupleSizeAcc (acc + (if QType.isReference t then 8 else QType.sizeof t)) ts

end

mutual

/-- `alignof` for unqualified types, translated per variant from types.py. -/
def UType.alignof : UType → Nat
  | .void => 0
  | .integer w _ => w
  | .floating w => w
  | .pointer _ => 8
  | .array u _ => QType.alignof u
  | .tupleT ts => tupleAlignAcc 0 ts
  | .function _ _ => 0

/-- `QualifiedType.alignof` delegates to the unqualified type. -/
def QType.alignof : QType → Nat
  | .qmk u _ => UType.alignof u

/-- The align accumulation loop of `TupleType.__init__`:
`align = max(align, tp.alignof())`. -/
def tupleAlignAcc : Nat → List QType → Nat
  | acc, [] => acc
  | acc, t :: ts => tupleAlignAcc (max acc (QType.alignof t)) ts

end

/-- `IntegerType.__init__`: asserts the width is a power of two in the
`w & (w - 1) == 0` sense, and that a width-1 integer is unsigned.  A failed
assertion raises; modelled as `Except`. -/
def IntegerType.make (w : Nat) (signed : Bool) : Except PyErr UType :=
  if w &&& (w - 1) == 0 then
    if w == 1 then
      if signed then .error (.assertionError "Integer with width 1 (boolean) must be unsigned")
      else .ok (.integer w signed)
    else .ok (.integer w signed)
  else .error (.assertionError "Integer width must be a power of two")

/-- `FloatingType.__init__`: asserts the width is 32 or 64. -/
def FloatingType.make (w : Nat) : Except PyErr UType :=
  if w == 32 || w == 64 then .ok (.floating w)
  else .error (.assertionError "width must be 32 or 64 (float or double respectively)")

/-- `ArrayType.__init__`: asserts the element type is not a reference. -/
def ArrayType.make (underlying : QType) (count : Nat) : Except PyErr UType :=
  if QType.isReference underlying then
    .error (.assertionError "There may not be an array of references")
  else .ok (.array underlying count)

/-! ## Tokens and the tokenizer (folder/token.py) -/

/-- The closed enumeration of lexical categories from `TokenType`. -/
inductive TokenType where
  | error
  | endOfFile
  | lParen | rParen | lBrace | rBrace | lBracket | rBracket
  | comma | dot | semicolon | colon | arrow
  | tilde
  | equal | bang | plus | minus | star | slash | percent
  | ampersand | pipe | caret | lShift | rShift | greater | lesser
  | equalEqual | bangEqual | plusEqual | minusEqual | starEqual | slashEqual
  | percentEqual | ampersandEqual | pipeEqual | caretEqual
  | lShiftEqual | rShiftEqual | greaterEqual | lesserEqual
  | identifier | boolLiteral | intLiteral | floatLiteral | stringLiteral
  | andKW | orKW | notKW | returnKW | ifKW | elseKW | varKW | fnKW
  deriving DecidableEq, Repr

/-- A token's `value` payload is dynamically typed in the source: absent for
punctuation, an integer for literals, text for identifiers and strings, the
offending character for error tokens, and the cursor index for end-of-file. -/
inductive TokenValue where
  | none
  | int (n : Nat)
  | str (s : List Char)
  | err (c : Char)
  | eofIdx (n : Nat)
  deriving DecidableEq, Repr

/-- The `Token` record: category, payload, zero-based source line. -/
structure Token where
  type : TokenType
  value : TokenValue
  line : Nat
  deriving DecidableEq, Repr

/-- `Tokenizer` state: the not-yet-consumed source suffix, the byte cursor,
and the line counter. -/
structure TokState where
  rest : List Char
  idx : Nat
  line : Nat
  deriving DecidableEq, Repr

/-- `Tokenizer.single_char_literals`. -/
def singleCharLiteral : Char → Option TokenType
  | '(' => some .lParen
  | ')' => some .rParen
  | '[' => some .lBracket
  | ']' => some .rBracket
  | '{' => some .lBrace
  | '}' => some .rBrace
  | ',' => some .comma
  | '.' => some .dot
  | ';' => some .semicolon
  | ':' => some .colon
  | '~' => some .tilde
  | _ => none

/-- `Tokenizer.keyword_map`. -/
def keywordMap (s : List Char) : Option TokenType :=
  if s = "and".data then some .andKW
  else if s = "or".data then some .orKW
  else if s = "not".data then some .notKW
  else if s = "return".data then some .returnKW
  else if s = "if".data then some .ifKW
  else if s = "else".data then some .elseKW
  else if s = "var".data then some .varKW
  else if s = "fn".data then some .fnKW
  else none

/-- `Tokenizer.regular_operators`: leading character to (plain, assign) pair. -/
def regularOperator : Char → Option (TokenType × TokenType)
  | '+' => some (.plus, .plusEqual)
  | '*' => some (.star, .starEqual)
  | '/' => some (.slash, .slashEqual)
  | '%' => some (.percent, .percentEqual)
  | '&' => some (.ampersand, .ampersandEqual)
  | '|' => some (.pipe, .pipeEqual)
  | '^' => some (.caret, .caretEqual)
  | '!' => some (.bang, .bangEqual)
  | '=' => some (.equal, .equalEqual)
  | _ => none

/-- `Tokenizer.number_chars`: digits and the underscore. -/
def numberChar (c : Char) : Bool := c.isDigit || c = '_'

/-- `Tokenizer.identifier_chars`: ASCII letters, digits and the underscore. -/
def identChar (c : Char) : Bool := c.isAlpha || c.isDigit || c = '_'

/-- Validity of a digits-and-underscores string for Python's `int`: every
underscore must sit between two digits (checked here after a leading digit). -/
def pyIntOkAux : List Char → Bool
  | [] => true
  | c :: rest =>
    if c.isDigit then pyIntOkAux rest
    else if c = '_' then
      match rest with
      | [] => false
      | d :: _ => d.isDigit && pyIntOkAux rest
    else false

/-- Validity of a whole literal string for Python's `int`. -/
def pyIntOk : List Char → Bool
  | [] => false
  | c :: rest => c.isDigit && pyIntOkAux rest

/-- Decimal value of a digit list. -/
def digitsToNat (s : List Char) : Nat :=
  s.foldl (fun acc c => acc * 10 + (c.toNat - 48)) 0

/-- Python's `int` applied to a scanned run of digits and underscores: raises
`ValueError` unless every underscore is flanked by digits; on success the
underscores are ignored and the digits read in decimal. -/
def pyInt (s : List Char) : Except PyErr Nat :=
  if pyIntOk s then .ok (digitsToNat (s.filter Char.isDigit)) else .error .valueError

/-- `Tokenizer.tokenize_number`: the leading digit `c` is already consumed;
scan the remaining digits/underscores and convert with Python's `int`. -/
def tokenizeNumber (c : Char) (ts : TokState) : Except PyErr (Token × TokState) :=
  let span := ts.rest.takeWhile numberChar
  match pyInt (c :: span) with
  | .ok n =>
      .ok (⟨.intLiteral, .int n, ts.line⟩,
           ⟨ts.rest.dropWhile numberChar, ts.idx + span.length, ts.line⟩)
  | .error e => .error e

/-- `Tokenizer.tokenize_identifier`: scan identifier characters, then check
the keyword table before producing a generic identifier token. -/
def tokenizeIdentifier (c : Char) (ts : TokState) : Token × TokState :=
  let span := ts.rest.takeWhile identChar
  let text := c :: span
  let ts' : TokState := ⟨ts.rest.dropWhile identChar, ts.idx + span.length, ts.line⟩
  match keywordMap text with
  | some kw => (⟨kw, .none, ts.line⟩, ts')
  | none => (⟨.identifier, .str text, ts.line⟩, ts')

/-- The scanning loop of `tokenize_string`: returns the consumed text, the
unconsumed suffix (starting at the closing quote when present), and the
number of newlines consumed. -/
def scanStr (close : Char) : List Char → List Char × List Char × Nat
  | [] => ([], [], 0)
  | c :: cs =>
    if c = close then ([], c :: cs, 0)
    else
      match scanStr close cs with
      | (t, r, n) => (c :: t, r, n + if c = '\n' then 1 else 0)

/-- `Tokenizer.tokenize_string`: the opening quote `close` is already
consumed; scan to the next occurrence of the same quote with no escape
processing, count embedded newlines, and report the opening line. -/
def tokenizeString (close : Char) (ts : TokState) : Token × TokState :=
  match scanStr close ts.rest with
  | (text, r, nl) =>
      (⟨.stringLiteral, .str text, ts.line⟩,
       ⟨r.drop 1, ts.idx + text.length + 1, ts.line + nl⟩)

/-- `Tokenizer.__call__`: produce the next token.  Spaces are skipped; a
newline increments the line counter but then falls through the operator
dispatch and comes back as an `error` token carrying the newline character
(the first `if` chain in the source does not restart the loop for it);
numbers may raise `ValueError` through Python's `int`. -/
def nextTokenAux : List Char → Nat → Nat → Except PyErr (Token × TokState)
  | [], idx, line => .ok (⟨.endOfFile, .eofIdx idx, line⟩, ⟨[], idx, line⟩)
  | c :: cs, idx, line =>
    if c = ' ' then nextTokenAux cs (idx + 1) line
    else if c = '\n' then .ok (⟨.error, .err '\n', line + 1⟩, ⟨cs, idx + 1, line + 1⟩)
    else
      let ts1 : TokState := ⟨cs, idx + 1, line⟩
      match singleCharLiteral c with
      | some tt => .ok (⟨tt, .none, line⟩, ts1)
      | Option.none =>
        if c.isDigit then tokenizeNumber c ts1
        else if c.isAlpha || c = '_' then .ok (tokenizeIdentifier c ts1)
        else if c = '\'' || c = '"' then .ok (tokenizeString c ts1)
        else
          match regularOperator c with
          | some (plain, assign) =>
            match cs with
            | '=' :: cs2 => .ok (⟨assign, .none, line⟩, ⟨cs2, idx + 2, line⟩)
            | _ => .ok (⟨plain, .none, line⟩, ts1)
          | Option.none =>
            if c = '-' then
              match cs with
              | '>' :: cs2 => .ok (⟨.arrow, .none, line⟩, ⟨cs2, idx + 2, line⟩)
              | '=' :: cs2 => .ok (⟨.minusEqual, .none, line⟩, ⟨cs2, idx + 2, line⟩)
              | _ => .ok (⟨.minus, .none, line⟩, ts1)
            else if c = '>' then
              match cs with
              | '>' :: '=' :: cs2 => .ok (⟨.rShiftEqual, .none, line⟩, ⟨cs2, idx + 3, line⟩)
              | '>' :: cs2 => .ok (⟨.rShift, .none, line⟩, ⟨cs2, idx + 2, line⟩)
              | '=' :: cs2 => .ok (⟨.greaterEqual, .none, line⟩, ⟨cs2, idx + 2, line⟩)
              | _ => .ok (⟨.greater, .none, line⟩, ts1)
            else if c = '<' then
              match cs with
              | '<' :: '=' :: cs2 => .ok (⟨.lShiftEqual, .none, line⟩, ⟨cs2, idx + 3, line⟩)
              | '<' :: cs2 => .ok (⟨.lShift, .none, line⟩, ⟨cs2, idx + 2, line⟩)
              | '=' :: cs2 => .ok (⟨.lesserEqual, .none, line⟩, ⟨cs2, idx + 2, line⟩)
              | _ => .ok (⟨.lesser, .none, line⟩, ts1)
            else .ok (⟨.error, .err c, line⟩, ts1)

/-- `Tokenizer.__call__` packaged over the tokenizer state. -/
def nextToken (ts : TokState) : Except PyErr (Token × TokState) :=
  nextTokenAux ts.rest ts.idx ts.line

/-! ## AST nodes (front/expression.py, front/statement.py) -/

/-- `ConstantKind`. -/
inductive ConstantKind where
  | boolK | intK | floatK | stringK
  deriving DecidableEq, Repr

/-- `UnaryOperatorKind`. -/
inductive UnaryOperatorKind where
  | negate | posate | flip | invert
  deriving DecidableEq, Repr

/-- `BinaryOperatorKind`. -/
inductive BinaryOperatorKind where
  | add | subtract | multiply | divide | modulo
  | bitand | bitor | bitxor | lshift | rshift
  | cmpGreater | cmpGreaterEqual | cmpLesser | cmpLesserEqual
  | cmpEqual | cmpInEqual
  deriving DecidableEq, Repr

/-- The `Expression` family.  `pyNone` models Python's `None`, which
`parse_atom` returns when no alternative matches.  Field payloads are
`TokenValue` because the source stores the dynamically typed `token.value`. -/
inductive Expression where
  | pyNone
  | constant (kind : ConstantKind) (value : TokenValue)
  | identifier (name : TokenValue)
  | unary (op : UnaryOperatorKind) (expr : Expression)
  | binary (lhs : Expression) (op : BinaryOperatorKind) (rhs : Expression)
  | ternary (condition ifClause elseClause : Expression)
  deriving DecidableEq, Repr

/-- The `Statement` family, with `module` for `ModuleDefinition`.  A function
definition stores its `FunctionType` node as an unqualified type. -/
inductive Statement where
  | exprStmt (expr : Expression)
  | returnStmt (expr : Expression)
  | block (statements : List Statement)
  | ifStmt (condition : Expression) (ifClause : Statement) (elseClause : Option Statement)
  | varDecl (name : TokenValue) (qualifiedType : QType) (initializer : Option Expression)
  | funcDef (name : TokenValue) (functionType : UType) (argNames : List TokenValue)
      (code : Option Statement)
  | module (statements : List Statement)

/-! ## Parser state and primitives (folder/parser.py) -/

/-- `SymbolEntryKind`. -/
inductive SymbolEntryKind where
  | varEntry | typeEntry
  deriving DecidableEq, Repr

/-- `SymbolEntry`: kind plus qualified type. -/
structure SymbolEntry where
  kind : SymbolEntryKind
  type : QType

/-- One scope of the symbol table: an insertion-ordered name map. -/
abbrev Scope : Type := List (List Char × SymbolEntry)

/-- The mutable parser state: current token, tokenizer state, diagnostics
list, and the scope stack (outermost first, innermost last as in the
source's `symbol_table` list). -/
structure PState where
  token : Token
  ts : TokState
  errors : List String
  symbolTable : List Scope

/-- `OpInfo`: precedence, associativity and operator kind. -/
structure OpInfo where
  precedence : Int
  leftAssociativity : Bool
  kind : BinaryOperatorKind
  deriving DecidableEq, Repr

/-- `Parser.operator_map`.  Note that the source keys the `CmpEqual` entry on
`TokenType.Equal` (the `=` token), not on `TokenType.EqualEqual`. -/
def operatorMap : TokenType → Option OpInfo
  | .star => some ⟨0, true, .multiply⟩
  | .slash => some ⟨0, true, .divide⟩
  | .percent => some ⟨0, true, .modulo⟩
  | .plus => some ⟨-1, true, .add⟩
  | .minus => some ⟨-1, true, .subtract⟩
  | .lShift => some ⟨-2, true, .lshift⟩
  | .rShift => some ⟨-2, true, .rshift⟩
  | .greater => some ⟨-3, true, .cmpGreater⟩
  | .greaterEqual => some ⟨-3, true, .cmpGreaterEqual⟩
  | .lesser => some ⟨-3, true, .cmpLesser⟩
  | .lesserEqual => some ⟨-3, true, .cmpLesserEqual⟩
  | .equal => some ⟨-4, true, .cmpEqual⟩
  | .bangEqual => some ⟨-4, true, .cmpInEqual⟩
  | .ampersand => some ⟨-5, true, .bitand⟩
  | .caret => some ⟨-6, true, .bitxor⟩
  | .pipe => some ⟨-7, true, .bitor⟩
  | _ => none

/-- Python `str()` of a token payload, as interpolated into diagnostics. -/
def vformat : TokenValue → String
  | .none => "None"
  | .int n => toString n
  | .str s => s.asString
  | .err c => "UnknownChar('" ++ String.mk [c] ++ "')"
  | .eofIdx n => toString n

/-- `dict.get` over one scope: first entry with the matching string key. -/
def searchScope (key : TokenValue) : List (List Char × SymbolEntry) → Option SymbolEntry
  | [] => Option.none
  | (k, v) :: rest => if key = .str k then some v else searchScope key rest

/-- `Parser.search_symbol`: scan scopes innermost (last) to outermost. -/
def searchSymbol (key : TokenValue) : List Scope → Option SymbolEntry
  | [] => Option.none
  | scope :: outerRest =>
    match searchSymbol key outerRest with
    | some e => some e
    | Option.none => searchScope key scope

/-- `Parser.enter_scope`: push an empty scope. -/
def enterScope (st : PState) : PState :=
  { st with symbolTable := st.symbolTable ++ [([] : Scope)] }

/-- `Parser.leave_scope`: pop the innermost scope. -/
def leaveScope (st : PState) : PState :=
  { st with symbolTable := st.symbolTable.dropLast }

/-- `Parser.advance`: return the current token and fetch the next one. -/
def advance (st : PState) : Except PyErr (Token × PState) :=
  match nextToken st.ts with
  | .ok (t', ts') => .ok (st.token, { st with token := t', ts := ts' })
  | .error e => .error e

/-- `Parser.match`: consume the current token when its type matches. -/
def matchTok (tp : TokenType) (st : PState) : Except PyErr (Bool × PState) :=
  if st.token.type = tp then
    match nextToken st.ts with
    | .ok (t', ts') => .ok (true, { st with token := t', ts := ts' })
    | .error e => .error e
  else .ok (false, st)

/-- `Parser.consume`: like `match`, but on a mismatch append the diagnostic
`s` to the error list and leave everything else unchanged. -/
def consume (tp : TokenType) (s : String) (st : PState) : Except PyErr (Bool × PState) :=
  if st.token.type = tp then
    match nextToken st.ts with
    | .ok (t', ts') => .ok (true, { st with token := t', ts := ts' })
    | .error e => .error e
  else .ok (false, { st with errors := st.errors ++ [s] })

/-- `Parser.void_type`. -/
def voidType : QType := .qmk .void 0

/-- The built-in entry the constructor installs for the name `i32`. -/
def i32Entry : SymbolEntry := ⟨.typeEntry, .qmk (.integer 32 true) 0⟩

/-- The symbol table as `Parser.__init__` leaves it: one root scope holding
only the `i32` entry. -/
def initSymbolTable : List Scope := [[("i32".data, i32Entry)]]

/-- `Parser.parse_type_expression`: look the identifier up at parse time; on
an unknown or non-type name append a diagnostic and substitute the
Void-qualified placeholder; a trailing `&` adds the Reference flag. -/
def parseTypeExpression (st : PState) : Except PyErr (QType × PState) :=
  let name := st.token.value
  match consume .identifier "Type must be an identifier" st with
  | .error e => .error e
  | .ok (_, st1) =>
    match searchSymbol name st1.symbolTable with
    | Option.none =>
        .ok (voidType,
             { st1 with errors := st1.errors ++ ["No type found with name " ++ vformat name] })
    | some entry =>
      if entry.kind ≠ .typeEntry then
        .ok (voidType,
             { st1 with errors := st1.errors ++ ["Non-type symbol used as a type expression"] })
      else
        match matchTok .ampersand st1 with
        | .error e => .error e
        | .ok (b, st2) =>
          if b then .ok (entry.type.addFlags referenceFlag, st2) else .ok (entry.type, st2)

/-! ## The recursive parse methods

The mutually recursive methods of `Parser` are embedded with explicit fuel:
a result is `nofuel` when the given recursion budget is exhausted, `raise`
when the underlying Python would propagate an exception, and `ok` otherwise.
All methods at fuel `n + 1` call each other at fuel `n`, so the whole family
is one structural recursion on the fuel packaged in a record. -/

/-- Outcome of one embedded parse call. -/
inductive PRes (α : Type) where
  | ok (a : α) (st : PState)
  | raise (e : PyErr)
  | nofuel

/-- The family of recursive `Parser` methods at one fuel level. -/
structure ParseFns where
  atom : PState → PRes Expression
  paren : PState → PRes Expression
  expr : Int → PState → PRes Expression
  exprLoop : Int → Expression → PState → PRes Expression
  blockLoop : List Statement → PState → PRes Statement
  ifS : PState → PRes Statement
  varDecl : PState → PRes Statement
  params : List TokenValue → List QType → PState → PRes (List TokenValue × List QType)
  funcDef : PState → PRes Statement
  stmt : PState → PRes Statement
  moduleLoop : List Statement → PState → PRes Statement

/-- The out-of-fuel bottom of the family. -/
def nofuelFns : ParseFns where
  atom := fun _ => .nofuel
  paren := fun _ => .nofuel
  expr := fun _ _ => .nofuel
  exprLoop := fun _ _ _ => .nofuel
  blockLoop := fun _ _ => .nofuel
  ifS := fun _ => .nofuel
  varDecl := fun _ => .nofuel
  params := fun _ _ _ => .nofuel
  funcDef := fun _ => .nofuel
  stmt := fun _ => .nofuel
  moduleLoop := fun _ _ => .nofuel

/-- One step of the family: each method body translated from the source,
with every recursive call going through the previous level `p`. -/
def stepFns (p : ParseFns) : ParseFns where
  atom := fun st =>
    -- Parser.parse_atom
    let token := st.token
    match matchTok .identifier st with
    | .error e => .raise e
    | .ok (true, st1) => .ok (.identifier token.value) st1
    | .ok (false, _) =>
      match matchTok .intLiteral st with
      | .error e => .raise e
      | .ok (true, st1) => .ok (.constant .intK token.value) st1
      | .ok (false, _) =>
        match matchTok .stringLiteral st with
        | .error e => .raise e
        | .ok (true, st1) => .ok (.constant .stringK token.value) st1
        | .ok (false, _) =>
          match matchTok .minus st with
          | .error e => .raise e
          | .ok (true, st1) =>
            (match p.atom st1 with
             | .ok e st2 => .ok (.unary .negate e) st2
             | .raise e => .raise e
             | .nofuel => .nofuel)
          | .ok (false, _) =>
            match matchTok .plus st with
            | .error e => .raise e
            | .ok (true, st1) =>
              (match p.atom st1 with
               | .ok e st2 => .ok (.unary .posate e) st2
               | .raise e => .raise e
               | .nofuel => .nofuel)
            | .ok (false, _) =>
              match matchTok .bang st with
              | .error e => .raise e
              | .ok (true, st1) =>
                (match p.atom st1 with
                 | .ok e st2 => .ok (.unary .flip e) st2
                 | .raise e => .raise e
                 | .nofuel => .nofuel)
              | .ok (false, _) =>
                match matchTok .tilde st with
                | .error e => .raise e
                | .ok (true, st1) =>
                  (match p.atom st1 with
                   | .ok e st2 => .ok (.unary .invert e) st2
                   | .raise e => .raise e
                   | .nofuel => .nofuel)
                | .ok (false, _) =>
                  match matchTok .lParen st with
                  | .error e => .raise e
                  | .ok (true, st1) => p.paren st1
                  | .ok (false, _) => .ok .pyNone st
  paren := fun st =>
    -- Parser.parse_parenthesis
    match p.expr (-1000) st with
    | .nofuel => .nofuel
    | .raise e => .raise e
    | .ok e st1 =>
      match consume .rParen "Expected ')' after expression in parenthesis" st1 with
      | .error ex => .raise ex
      | .ok (_, st2) => .ok e st2
  expr := fun minPrec st =>
    -- Parser.parse_expression: one atom, then the operator loop
    match p.atom st with
    | .nofuel => .nofuel
    | .raise e => .raise e
    | .ok lhs st1 => p.exprLoop minPrec lhs st1
  exprLoop := fun minPrec lhs st =>
    -- the while loop of Parser.parse_expression
    match operatorMap st.token.type with
    | Option.none => .ok lhs st
    | some info =>
      if info.precedence < minPrec then .ok lhs st
      else
        match advance st with
        | .error e => .raise e
        | .ok (_, st1) =>
          match p.expr (info.precedence + (if info.leftAssociativity then 1 else 0)) st1 with
          | .nofuel => .nofuel
          | .raise e => .raise e
          | .ok rhs st2 => p.exprLoop minPrec (.binary lhs info.kind rhs) st2
  blockLoop := fun acc st =>
    -- Parser.parse_block
    match matchTok .rBrace st with
    | .error e => .raise e
    | .ok (true, st1) => .ok (.block acc) st1
    | .ok (false, _) =>
      match p.stmt st with
      | .nofuel => .nofuel
      | .raise e => .raise e
      | .ok s st1 => p.blockLoop (acc ++ [s]) st1
  ifS := fun st =>
    -- Parser.parse_if
    match consume .lParen "Expected '(' after if statement" st with
    | .error e => .raise e
    | .ok (_, st1) =>
      match p.expr (-1000) st1 with
      | .nofuel => .nofuel
      | .raise e => .raise e
      | .ok condition st2 =>
        match consume .rParen "Expected ')' after if's condition" st2 with
        | .error e => .raise e
        | .ok (_, st3) =>
          match p.stmt st3 with
          | .nofuel => .nofuel
          | .raise e => .raise e
          | .ok ifClause st4 =>
            match matchTok .elseKW st4 with
            | .error e => .raise e
            | .ok (true, st5) =>
              (match p.stmt st5 with
               | .nofuel => .nofuel
               | .raise e => .raise e
               | .ok elseClause st6 => .ok (.ifStmt condition ifClause (some elseClause)) st6)
            | .ok (false, st5) => .ok (.ifStmt condition ifClause Option.none) st5
  varDecl := fun st =>
    -- Parser.parse_variable_declaration
    let name := st.token.value
    match consume .identifier "Variable declaration must have a name!" st with
    | .error e => .raise e
    | .ok (_, st1) =>
      match consume .colon "Expected ':' after variable declaration name" st1 with
      | .error e => .raise e
      | .ok (_, st2) =>
        match parseTypeExpression st2 with
        | .error e => .raise e
        | .ok (tp, st3) =>
          match matchTok .equal st3 with
          | .error e => .raise e
          | .ok (true, st4) =>
            (match p.expr (-1000) st4 with
             | .nofuel => .nofuel
             | .raise e => .raise e
             | .ok init st5 =>
               match consume .semicolon "Expected ';' after variable declaration" st5 with
               | .error e => .raise e
               | .ok (_, st6) => .ok (.varDecl name tp (some init)) st6)
          | .ok (false, st4) =>
            match consume .semicolon "Expected ';' after variable declaration" st4 with
            | .error e => .raise e
            | .ok (_, st5) => .ok (.varDecl name tp Option.none) st5
  params := fun accNames accTypes st =>
    -- the parameter loop of Parser.parse_function_definition
    if st.token.type = .identifier then
      match advance st with
      | .error e => .raise e
      | .ok (t, st1) =>
        match consume .colon "Expected ':' after function parameter name" st1 with
        | .error e => .raise e
        | .ok (_, st2) =>
          match parseTypeExpression st2 with
          | .error e => .raise e
          | .ok (tp, st3) =>
            match matchTok .comma st3 with
            | .error e => .raise e
            | .ok (true, st4) => p.params (accNames ++ [t.value]) (accTypes ++ [tp]) st4
            | .ok (false, st4) => .ok (accNames ++ [t.value], accTypes ++ [tp]) st4
    else .ok (accNames, accTypes) st
  funcDef := fun st =>
    -- Parser.parse_function_definition
    let name := st.token.value
    match consume .identifier "Function definition must have a name!" st with
    | .error e => .raise e
    | .ok (_, st1) =>
      match consume .lParen "Expected '(' after function name" st1 with
      | .error e => .raise e
      | .ok (_, st2) =>
        match p.params [] [] st2 with
        | .nofuel => .nofuel
        | .raise e => .raise e
        | .ok (argNames, argTypes) st3 =>
          match consume .rParen "Expected ')' after function arguments" st3 with
          | .error e => .raise e
          | .ok (_, st4) =>
            match consume .arrow "Expected '->' after function arguments" st4 with
            | .error e => .raise e
            | .ok (_, st5) =>
              match parseTypeExpression st5 with
              | .error e => .raise e
              | .ok (retTp, st6) =>
                match matchTok .semicolon st6 with
                | .error e => .raise e
                | .ok (true, st7) =>
                  .ok (.funcDef name (.function retTp argTypes) argNames Option.none) st7
                | .ok (false, st7) =>
                  match consume .lBrace "Expected '\x7b' after function definition" st7 with
                  | .error e => .raise e
                  | .ok (_, st8) =>
                    match p.blockLoop [] st8 with
                    | .nofuel => .nofuel
                    | .raise e => .raise e
                    | .ok code st9 =>
                      .ok (.funcDef name (.function retTp argTypes) argNames (some code)) st9
  stmt := fun st =>
    -- Parser.parse_statement
    match matchTok .returnKW st with
    | .error e => .raise e
    | .ok (true, st1) =>
      (match p.expr (-1000) st1 with
       | .nofuel => .nofuel
       | .raise e => .raise e
       | .ok e st2 =>
         match consume .semicolon "Expected ';' after return statement" st2 with
         | .error ex => .raise ex
         | .ok (_, st3) => .ok (.returnStmt e) st3)
    | .ok (false, _) =>
      match matchTok .fnKW st with
      | .error e => .raise e
      | .ok (true, st1) => p.funcDef st1
      | .ok (false, _) =>
        match matchTok .varKW st with
        | .error e => .raise e
        | .ok (true, st1) => p.varDecl st1
        | .ok (false, _) =>
          match matchTok .ifKW st with
          | .error e => .raise e
          | .ok (true, st1) => p.ifS st1
          | .ok (false, _) =>
            match matchTok .lBrace st with
            | .error e => .raise e
            | .ok (true, st1) => p.blockLoop [] st1
            | .ok (false, _) =>
              match p.expr (-1000) st with
              | .nofuel => .nofuel
              | .raise e => .raise e
              | .ok e st1 =>
                match consume .semicolon "Expected ';' after expression statement" st1 with
                | .error ex => .raise ex
                | .ok (_, st2) => .ok (.exprStmt e) st2
  moduleLoop := fun acc st =>
    -- the while loop of Parser.parse_module
    if st.token.type = .endOfFile then .ok (.module acc) st
    else
      match p.stmt st with
      | .nofuel => .nofuel
      | .raise e => .raise e
      | .ok s st1 => p.moduleLoop (acc ++ [s]) st1

/-- The family of parse methods at a given fuel. -/
def fnsAt : Nat → ParseFns
  | 0 => nofuelFns
  | n + 1 => stepFns (fnsAt n)

/-- `Parser.parse_atom` at a fuel. -/
def parseAtom (fuel : Nat) : PState → PRes Expression := (fnsAt fuel).atom

/-- `Parser.parse_parenthesis` at a fuel. -/
def parseParenthesis (fuel : Nat) : PState → PRes Expression := (fnsAt fuel).paren

/-- `Parser.parse_expression` at a fuel (`minPrec` defaults to `-1000` at
call sites, as in the source). -/
def parseExpression (fuel : Nat) : Int → PState → PRes Expression := (fnsAt fuel).expr

/-- The binary-operator loop of `Parser.parse_expression` at a fuel. -/
def parseExprLoop (fuel : Nat) : Int → Expression → PState → PRes Expression :=
  (fnsAt fuel).exprLoop

/-- `Parser.parse_block` at a fuel, with the statements accumulated so far. -/
def parseBlockLoop (fuel : Nat) : List Statement → PState → PRes Statement :=
  (fnsAt fuel).blockLoop

/-- `Parser.parse_if` at a fuel. -/
def parseIf (fuel : Nat) : PState → PRes Statement := (fnsAt fuel).ifS

/-- `Parser.parse_variable_declaration` at a fuel. -/
def parseVariableDeclaration (fuel : Nat) : PState → PRes Statement := (fnsAt fuel).varDecl

/-- The parameter loop of `Parser.parse_function_definition` at a fuel. -/
def parseParamsLoop (fuel : Nat) :
    List TokenValue → List QType → PState → PRes (List TokenValue × List QType) :=
  (fnsAt fuel).params

/-- `Parser.parse_function_definition` at a fuel. -/
def parseFunctionDefinition (fuel : Nat) : PState → PRes Statement := (fnsAt fuel).funcDef

/-- `Parser.parse_statement` at a fuel. -/
def parseStatement (fuel : Nat) : PState → PRes Statement := (fnsAt fuel).stmt

/-- The statement loop of `Parser.parse_module` at a fuel. -/
def parseModuleLoop (fuel : Nat) : List Statement → PState → PRes Statement :=
  (fnsAt fuel).moduleLoop

/-- `Parser.parse_module` at a fuel. -/
def parseModule (fuel : Nat) (st : PState) : PRes Statement := parseModuleLoop fuel [] st

/-- `Parser.__init__`: fetch the first token and seed the symbol table with
the built-in `i32` integer type.  The initial fetch itself can raise. -/
def initState (src : List Char) : Except PyErr PState :=
  match nextToken ⟨src, 0, 0⟩ with
  | .ok (t, ts) => .ok ⟨t, ts, [], initSymbolTable⟩
  | .error e => .error e

/-- Construct a `Parser` from source text and run `parse_module`. -/
def runParse (src : List Char) (fuel : Nat) : PRes Statement :=
  match initState src with
  | .ok st => parseModule fuel st
  | .error e => .raise e

/-- The `ModuleDefinition` of a completed parse. -/
def resultModule : PRes Statement → Option Statement
  | .ok m _ => some m
  | _ => Option.none

/-- The ordered diagnostics list of a completed parse. -/
def resultErrors : PRes Statement → Option (List String)
  | .ok _ st => some st.errors
  | _ => Option.none

/-! ## Auxiliary predicates and concrete states used by the theorems -/

/-- A token type that no statement dispatch, atom alternative, binary
operator entry, or loop guard of the parser ever consumes.  When the current
token has such a type, `parse_statement` falls to the expression-statement
branch, parses the empty atom, fails to consume the semicolon, and leaves
the token in place. -/
def StuckTok (t : TokenType) : Prop :=
  t ≠ .returnKW ∧ t ≠ .fnKW ∧ t ≠ .varKW ∧ t ≠ .ifKW ∧ t ≠ .lBrace ∧
  t ≠ .identifier ∧ t ≠ .intLiteral ∧ t ≠ .stringLiteral ∧
  t ≠ .minus ∧ t ≠ .plus ∧ t ≠ .bang ∧ t ≠ .tilde ∧ t ≠ .lParen ∧
  t ≠ .semicolon ∧ t ≠ .endOfFile ∧ operatorMap t = Option.none

instance (t : TokenType) : Decidable (StuckTok t) := by
  unfold StuckTok; infer_instance

/-- An ASCII character that every tokenizer dispatch rule rejects: not a
space or newline, not single-character punctuation, not a digit, letter or
underscore, not a quote, and not the start of any operator.  The ASCII bound
restricts the statement to the repertoire on which the embedding's
letter/digit classification coincides with CPython's `str.isalpha` and
`str.isdigit` (which are Unicode-aware beyond ASCII). -/
def UnrecognizedAscii (c : Char) : Prop :=
  c.toNat < 128 ∧ c ≠ ' ' ∧ c ≠ '\n' ∧
  singleCharLiteral c = Option.none ∧
  c.isDigit = false ∧ c.isAlpha = false ∧ c ≠ '_' ∧
  c ≠ '\'' ∧ c ≠ '"' ∧
  regularOperator c = Option.none ∧
  c ≠ '-' ∧ c ≠ '>' ∧ c ≠ '<'

instance (c : Char) : Decidable (UnrecognizedAscii c) := by
  unfold UnrecognizedAscii; infer_instance

/-- The parser state right after constructing a `Parser` on `")"`. -/
def rparenState : PState :=
  ⟨⟨.rParen, .none, 0⟩, ⟨[], 1, 0⟩, [], initSymbolTable⟩

/-- The parser state right after constructing a `Parser` on `"1 == 2;"`. -/
def eqeqInitState : PState :=
  ⟨⟨.intLiteral, .int 1, 0⟩, ⟨" == 2;".data, 1, 0⟩, [], initSymbolTable⟩

/-- The parser state after the first `parse_statement` on `"1 == 2;"`: the
`==` token is still current and one cascading diagnostic was recorded. -/
def eqeqStuckState : PState :=
  ⟨⟨.equalEqual, .none, 0⟩, ⟨" 2;".data, 4, 0⟩,
   ["Expected ';' after expression statement"], initSymbolTable⟩

/-- A parser state over exhausted input, used to witness hypotheses. -/
def demoState : PState :=
  ⟨⟨.endOfFile, .eofIdx 0, 0⟩, ⟨[], 0, 0⟩, [], initSymbolTable⟩

/-- A parse call preserves the symbol table: whenever it returns normally,
the output state carries the same scope stack as the input state. -/
def PresA {α : Type} (f : PState → PRes α) : Prop :=
  ∀ st a st', f st = .ok a st' → st'.symbolTable = st.symbolTable

/-- All methods of one fuel level preserve the symbol table. -/
def PresF (p : ParseFns) : Prop :=
  PresA p.atom ∧
  PresA p.paren ∧
  (∀ mp, PresA (p.expr mp)) ∧
  (∀ mp lhs, PresA (p.exprLoop mp lhs)) ∧
  (∀ acc, PresA (p.blockLoop acc)) ∧
  PresA p.ifS ∧
  PresA p.varDecl ∧
  (∀ a b, PresA (p.params a b)) ∧
  PresA p.funcDef ∧
  PresA p.stmt ∧
  (∀ acc, PresA (p.moduleLoop acc))

/-! ## Helper lemmas -/

theorem tupleSizeAcc_eq (ts : List QType) : ∀ acc : Nat,
    tupleSizeAcc acc ts =
      acc + (ts.map (fun t => if QType.isReference t then 8 else QType.sizeof t)).sum := by
  induction ts with
  | nil => intro acc; simp [tupleSizeAcc]
  | cons t ts ih => intro acc; simp only [tupleSizeAcc, ih, List.map_cons, List.sum_cons]; omega

theorem tupleAlignAcc_eq (ts : List QType) : ∀ acc : Nat,
    tupleAlignAcc acc ts = max acc ((ts.map QType.alignof).foldr max 0) := by
  induction ts with
  | nil => intro acc; simp [tupleAlignAcc]
  | cons t ts ih =>
    intro acc
    simp only [tupleAlignAcc, ih, List.map_cons, List.foldr_cons]
    exact max_assoc acc (QType.alignof t) _

theorem consume_mismatch (tp : TokenType) (s : String) (st : PState)
    (h : st.token.type ≠ tp) :
    consume tp s st = .ok (false, { st with errors := st.errors ++ [s] }) := by
  unfold consume
  rw [if_neg h]

theorem matchTok_mismatch (tp : TokenType) (st : PState) (h : st.token.type ≠ tp) :
    matchTok tp st = .ok (false, st) := by
  unfold matchTok
  rw [if_neg h]

theorem matchTok_sym {tp : TokenType} {st : PState} {b : Bool} {st' : PState}
    (h : matchTok tp st = .ok (b, st')) : st'.symbolTable = st.symbolTable := by
  unfold matchTok at h
  split at h
  · cases hn : nextToken st.ts with
    | error e => rw [hn] at h; exact Except.noConfusion h
    | ok pr => obtain ⟨t', ts'⟩ := pr; rw [hn] at h; cases h; rfl
  · cases h; rfl

theorem consume_sym {tp : TokenType} {s : String} {st : PState} {b : Bool} {st' : PState}
    (h : consume tp s st = .ok (b, st')) : st'.symbolTable = st.symbolTable := by
  unfold consume at h
  split at h
  · cases hn : nextToken st.ts with
    | error e => rw [hn] at h; exact Except.noConfusion h
    | ok pr => obtain ⟨t', ts'⟩ := pr; rw [hn] at h; cases h; rfl
  · cases h; rfl

theorem advance_sym {st : PState} {t : Token} {st' : PState}
    (h : advance st = .ok (t, st')) : st'.symbolTable = st.symbolTable := by
  unfold advance at h
  cases hn : nextToken st.ts with
  | error e => rw [hn] at h; exact Except.noConfusion h
  | ok pr => obtain ⟨t', ts'⟩ := pr; rw [hn] at h; cases h; rfl

theorem typeExpr_sym {st : PState} {tp : QType} {st' : PState}
    (h : parseTypeExpression st = .ok (tp, st')) : st'.symbolTable = st.symbolTable := by
  simp only [parseTypeExpression] at h
  split at h
  · exact Except.noConfusion h
  · rename_i b st1 heq1
    split at h
    · cases h; have e1 := consume_sym heq1; exact e1
    · split at h
      · cases h; have e1 := consume_sym heq1; exact e1
      · split at h
        · exact Except.noConfusion h
        · rename_i b2 st2 heq3
          split at h
          · cases h; have e1 := (matchTok_sym heq3).trans (consume_sym heq1); exact e1
          · cases h; have e1 := (matchTok_sym heq3).trans (consume_sym heq1); exact e1

theorem presF_nofuel : PresF nofuelFns :=
  ⟨fun _ _ _ h => PRes.noConfusion h, fun _ _ _ h => PRes.noConfusion h,
   fun _ _ _ _ h => PRes.noConfusion h, fun _ _ _ _ _ h => PRes.noConfusion h,
   fun _ _ _ _ h => PRes.noConfusion h, fun _ _ _ h => PRes.noConfusion h,
   fun _ _ _ h => PRes.noConfusion h, fun _ _ _ _ _ h => PRes.noConfusion h,
   fun _ _ _ h => PRes.noConfusion h, fun _ _ _ h => PRes.noConfusion h,
   fun _ _ _ _ h => PRes.noConfusion h⟩

theorem step_paren_sym (p : ParseFns) (hp : PresF p) : PresA (stepFns p).paren := by
  obtain ⟨pa, pp, pe, pel, pb, pif, pv, ppr, pfd, ps, pm⟩ := hp
  intro st a st' h
  simp only [stepFns] at h
  split at h
  · exact PRes.noConfusion h
  · exact PRes.noConfusion h
  · rename_i e1 st1 heq1
    split at h
    · exact PRes.noConfusion h
    · rename_i b st2 heq2
      cases h
      exact (consume_sym heq2).trans (pe (-1000) st _ st1 heq1)

theorem step_expr_sym (p : ParseFns) (hp : PresF p) : ∀ mp, PresA ((stepFns p).expr mp) := by
  obtain ⟨pa, pp, pe, pel, pb, pif, pv, ppr, pfd, ps, pm⟩ := hp
  intro mp st a st' h
  simp only [stepFns] at h
  split at h
  · exact PRes.noConfusion h
  · exact PRes.noConfusion h
  · rename_i lhs st1 heq1
    exact (pel mp lhs st1 a st' h).trans (pa st lhs st1 heq1)

theorem step_exprLoop_sym (p : ParseFns) (hp : PresF p) :
    ∀ mp lhs, PresA ((stepFns p).exprLoop mp lhs) := by
  obtain ⟨pa, pp, pe, pel, pb, pif, pv, ppr, pfd, ps, pm⟩ := hp
  intro mp lhs st a st' h
  simp only [stepFns] at h
  split at h
  · cases h; rfl
  · rename_i info heq0
    split at h
    · cases h; rfl
    · split at h
      · exact PRes.noConfusion h
      · rename_i t st1 heq1
        split at h
        · exact PRes.noConfusion h
        · exact PRes.noConfusion h
        · rename_i rhs st2 heq2
          exact (pel mp (.binary lhs info.kind rhs) st2 a st' h).trans
            ((pe _ st1 rhs st2 heq2).trans (advance_sym heq1))

theorem step_atom_sym (p : ParseFns) (hp : PresF p) : PresA (stepFns p).atom := by
  obtain ⟨pa, pp, pe, pel, pb, pif, pv, ppr, pfd, ps, pm⟩ := hp
  intro st a st' h
  simp only [stepFns] at h
  split at h
  · exact PRes.noConfusion h
  · rename_i st1 heq1; cases h; exact matchTok_sym heq1
  · split at h
    · exact PRes.noConfusion h
    · rename_i st1 heq2; cases h; exact matchTok_sym heq2
    · split at h
      · exact PRes.noConfusion h
      · rename_i st1 heq3; cases h; exact matchTok_sym heq3
      · split at h
        · exact PRes.noConfusion h
        · rename_i st1 heq4
          split at h
          · rename_i e2 st2 heqA; cases h; exact (pa _ _ _ heqA).trans (matchTok_sym heq4)
          · exact PRes.noConfusion h
          · exact PRes.noConfusion h
        · split at h
          · exact PRes.noConfusion h
          · rename_i st1 heq5
            split at h
            · rename_i e2 st2 heqA; cases h; exact (pa _ _ _ heqA).trans (matchTok_sym heq5)
            · exact PRes.noConfusion h
            · exact PRes.noConfusion h
          · split at h
            · exact PRes.noConfusion h
            · rename_i st1 heq6
              split at h
              · rename_i e2 st2 heqA; cases h
                exact (pa _ _ _ heqA).trans (matchTok_sym heq6)
              · exact PRes.noConfusion h
              · exact PRes.noConfusion h
            · split at h
              · exact PRes.noConfusion h
              · rename_i st1 heq7
                split at h
                · rename_i e2 st2 heqA; cases h
                  exact (pa _ _ _ heqA).trans (matchTok_sym heq7)
                · exact PRes.noConfusion h
                · exact PRes.noConfusion h
              · split at h
                · exact PRes.noConfusion h
                · rename_i st1 heq8
                  exact (pp _ _ _ h).trans (matchTok_sym heq8)
                · cases h; rfl

theorem step_blockLoop_sym (p : ParseFns) (hp : PresF p) :
    ∀ acc, PresA ((stepFns p).blockLoop acc) := by
  obtain ⟨pa, pp, pe, pel, pb, pif, pv, ppr, pfd, ps, pm⟩ := hp
  intro acc st a st' h
  simp only [stepFns] at h
  split at h
  · exact PRes.noConfusion h
  · rename_i st1 heq1; cases h; exact matchTok_sym heq1
  · split at h
    · exact PRes.noConfusion h
    · exact PRes.noConfusion h
    · rename_i s st1 heq2
      exact (pb _ _ _ _ h).trans (ps _ _ _ heq2)

theorem step_ifS_sym (p : ParseFns) (hp : PresF p) : PresA (stepFns p).ifS := by
  obtain ⟨pa, pp, pe, pel, pb, pif, pv, ppr, pfd, ps, pm⟩ := hp
  intro st a st' h
  simp only [stepFns] at h
  split at h
  · exact PRes.noConfusion h
  · rename_i b1 st1 heq1
    split at h
    · exact PRes.noConfusion h
    · exact PRes.noConfusion h
    · rename_i cond st2 heq2
      split at h
      · exact PRes.noConfusion h
      · rename_i b2 st3 heq3
        split at h
        · exact PRes.noConfusion h
        · exact PRes.noConfusion h
        · rename_i ifc st4 heq4
          split at h
          · exact PRes.noConfusion h
          · rename_i st5 heq5
            split at h
            · exact PRes.noConfusion h
            · exact PRes.noConfusion h
            · rename_i els st6 heq6
              cases h
              exact (ps _ _ _ heq6).trans ((matchTok_sym heq5).trans
                ((ps _ _ _ heq4).trans ((consume_sym heq3).trans
                  ((pe _ _ _ _ heq2).trans (consume_sym heq1)))))
          · rename_i st5 heq5
            cases h
            exact (matchTok_sym heq5).trans ((ps _ _ _ heq4).trans
              ((consume_sym heq3).trans ((pe _ _ _ _ heq2).trans
                (consume_sym heq1))))

theorem step_varDecl_sym (p : ParseFns) (hp : PresF p) : PresA (stepFns p).varDecl := by
  obtain ⟨pa, pp, pe, pel, pb, pif, pv, ppr, pfd, ps, pm⟩ := hp
  intro st a st' h
  simp only [stepFns] at h
  split at h
  · exact PRes.noConfusion h
  · rename_i b1 st1 heq1
    split at h
    · exact PRes.noConfusion h
    · rename_i b2 st2 heq2
      split at h
      · exact PRes.noConfusion h
      · rename_i tp st3 heq3
        split at h
        · exact PRes.noConfusion h
        · rename_i st4 heq4
          split at h
          · exact PRes.noConfusion h
          · exact PRes.noConfusion h
          · rename_i init st5 heq5
            split at h
            · exact PRes.noConfusion h
            · rename_i b3 st6 heq6
              cases h
              exact (consume_sym heq6).trans ((pe _ _ _ _ heq5).trans
                ((matchTok_sym heq4).trans ((typeExpr_sym heq3).trans
                  ((consume_sym heq2).trans (consume_sym heq1)))))
        · rename_i st4 heq4
          split at h
          · exact PRes.noConfusion h
          · rename_i b3 st5 heq5
            cases h
            exact (consume_sym heq5).trans ((matchTok_sym heq4).trans
              ((typeExpr_sym heq3).trans ((consume_sym heq2).trans (consume_sym heq1))))

theorem step_params_sym (p : ParseFns) (hp : PresF p) :
    ∀ a b, PresA ((stepFns p).params a b) := by
  obtain ⟨pa, pp, pe, pel, pb, pif, pv, ppr, pfd, ps, pm⟩ := hp
  intro accN accT st a st' h
  simp only [stepFns] at h
  split at h
  · split at h
    · exact PRes.noConfusion h
    · rename_i t st1 heq1
      split at h
      · exact PRes.noConfusion h
      · rename_i b2 st2 heq2
        split at h
        · exact PRes.noConfusion h
        · rename_i tp st3 heq3
          split at h
          · exact PRes.noConfusion h
          · rename_i st4 heq4
            exact (ppr _ _ _ _ _ h).trans
              ((matchTok_sym heq4).trans ((typeExpr_sym heq3).trans
                ((consume_sym heq2).trans (advance_sym heq1))))
          · rename_i st4 heq4
            cases h
            exact (matchTok_sym heq4).trans ((typeExpr_sym heq3).trans
              ((consume_sym heq2).trans (advance_sym heq1)))
  · cases h; rfl

theorem step_funcDef_sym (p : ParseFns) (hp : PresF p) : PresA (stepFns p).funcDef := by
  obtain ⟨pa, pp, pe, pel, pb, pif, pv, ppr, pfd, ps, pm⟩ := hp
  intro st a st' h
  simp only [stepFns] at h
  split at h
  · exact PRes.noConfusion h
  · rename_i b1 st1 heq1
    split at h
    · exact PRes.noConfusion h
    · rename_i b2 st2 heq2
      split at h
      · exact PRes.noConfusion h
      · exact PRes.noConfusion h
      · rename_i names types st3 heq3
        split at h
        · exact PRes.noConfusion h
        · rename_i b3 st4 heq4
          split at h
          · exact PRes.noConfusion h
          · rename_i b4 st5 heq5
            split at h
            · exact PRes.noConfusion h
            · rename_i retTp st6 heq6
              split at h
              · exact PRes.noConfusion h
              · rename_i st7 heq7
                cases h
                exact (matchTok_sym heq7).trans ((typeExpr_sym heq6).trans
                  ((consume_sym heq5).trans ((consume_sym heq4).trans
                    ((ppr _ _ _ _ _ heq3).trans ((consume_sym heq2).trans
                      (consume_sym heq1))))))
              · rename_i st7 heq7
                split at h
                · exact PRes.noConfusion h
                · rename_i b5 st8 heq8
                  split at h
                  · exact PRes.noConfusion h
                  · exact PRes.noConfusion h
                  · rename_i code st9 heq9
                    cases h
                    exact (pb _ _ _ _ heq9).trans ((consume_sym heq8).trans
                      ((matchTok_sym heq7).trans ((typeExpr_sym heq6).trans
                        ((consume_sym heq5).trans ((consume_sym heq4).trans
                          ((ppr _ _ _ _ _ heq3).trans ((consume_sym heq2).trans
                            (consume_sym heq1))))))))

theorem step_stmt_sym (p : ParseFns) (hp : PresF p) : PresA (stepFns p).stmt := by
  obtain ⟨pa, pp, pe, pel, pb, pif, pv, ppr, pfd, ps, pm⟩ := hp
  intro st a st' h
  simp only [stepFns] at h
  split at h
  · exact PRes.noConfusion h
  · rename_i st1 heq1
    split at h
    · exact PRes.noConfusion h
    · exact PRes.noConfusion h
    · rename_i e st2 heq2
      split at h
      · exact PRes.noConfusion h
      · rename_i b2 st3 heq3
        cases h
        exact (consume_sym heq3).trans ((pe _ _ _ _ heq2).trans
          (matchTok_sym heq1))
  · split at h
    · exact PRes.noConfusion h
    · rename_i st1 heq2
      exact (pfd _ _ _ h).trans (matchTok_sym heq2)
    · split at h
      · exact PRes.noConfusion h
      · rename_i st1 heq3
        exact (pv _ _ _ h).trans (matchTok_sym heq3)
      · split at h
        · exact PRes.noConfusion h
        · rename_i st1 heq4
          exact (pif _ _ _ h).trans (matchTok_sym heq4)
        · split at h
          · exact PRes.noConfusion h
          · rename_i st1 heq5
            exact (pb _ _ _ _ h).trans (matchTok_sym heq5)
          · split at h
            · exact PRes.noConfusion h
            · exact PRes.noConfusion h
            · rename_i e st1 heq6
              split at h
              · exact PRes.noConfusion h
              · rename_i b2 st2 heq7
                cases h
                exact (consume_sym heq7).trans (pe _ _ _ _ heq6)

theorem step_moduleLoop_sym (p : ParseFns) (hp : PresF p) :
    ∀ acc, PresA ((stepFns p).moduleLoop acc) := by
  obtain ⟨pa, pp, pe, pel, pb, pif, pv, ppr, pfd, ps, pm⟩ := hp
  intro acc st a st' h
  simp only [stepFns] at h
  split at h
  · cases h; rfl
  · split at h
    · exact PRes.noConfusion h
    · exact PRes.noConfusion h
    · rename_i s st1 heq1
      exact (pm (acc ++ [s]) st1 a st' h).trans (ps st s st1 heq1)

theorem presF_step (p : ParseFns) (hp : PresF p) : PresF (stepFns p) :=
  ⟨step_atom_sym p hp, step_paren_sym p hp, step_expr_sym p hp, step_exprLoop_sym p hp,
   step_blockLoop_sym p hp, step_ifS_sym p hp, step_varDecl_sym p hp, step_params_sym p hp,
   step_funcDef_sym p hp, step_stmt_sym p hp, step_moduleLoop_sym p hp⟩

theorem presF_fnsAt : ∀ n : Nat, PresF (fnsAt n) := by
  intro n
  induction n with
  | zero => exact presF_nofuel
  | succ n ih => exact presF_step (fnsAt n) ih

theorem scanStr_spec (q : Char) (body after : List Char) (h : q ∉ body) :
    scanStr q (body ++ q :: after) = (body, q :: after, body.count '\n') := by
  induction body with
  | nil => simp [scanStr]
  | cons b bs ih =>
    have hb : ¬(b = q) := fun e => h (e ▸ List.mem_cons_self b bs)
    have hq : q ∉ bs := fun m => h (List.mem_cons_of_mem b m)
    simp only [List.cons_append, scanStr]
    rw [if_neg hb]
    simp only [List.append_eq]
    rw [ih hq]
    rcases eq_or_ne b '\n' with rfl | hbn
    · simp [List.count_cons]
    · simp [List.count_cons, hbn, Ne.symm hbn]

theorem stuck_atom (n : Nat) (st : PState) (h : StuckTok st.token.type) :
    (fnsAt (n + 1)).atom st = .ok .pyNone st := by
  obtain ⟨h1, h2, h3, h4, h5, h6, h7, h8, h9, h10, h11, h12, h13, h14, h15, hop⟩ := h
  show (stepFns (fnsAt n)).atom st = _
  simp only [stepFns, matchTok_mismatch _ _ h6, matchTok_mismatch _ _ h7,
    matchTok_mismatch _ _ h8, matchTok_mismatch _ _ h9, matchTok_mismatch _ _ h10,
    matchTok_mismatch _ _ h11, matchTok_mismatch _ _ h12, matchTok_mismatch _ _ h13]

theorem stuck_exprLoop (n : Nat) (mp : Int) (lhs : Expression) (st : PState)
    (hop : operatorMap st.token.type = Option.none) :
    (fnsAt (n + 1)).exprLoop mp lhs st = .ok lhs st := by
  show (stepFns (fnsAt n)).exprLoop mp lhs st = _
  simp only [stepFns, hop]

theorem stuck_expr (n : Nat) (mp : Int) (st : PState) (h : StuckTok st.token.type) :
    (fnsAt (n + 2)).expr mp st = .ok .pyNone st := by
  show (stepFns (fnsAt (n + 1))).expr mp st = _
  simp only [stepFns, stuck_atom n st h]
  exact stuck_exprLoop n mp .pyNone st h.2.2.2.2.2.2.2.2.2.2.2.2.2.2.2

theorem stuck_stmt (m : Nat) (st : PState) (h : StuckTok st.token.type) :
    (fnsAt (m + 3)).stmt st =
      .ok (.exprStmt .pyNone)
        { st with errors := st.errors ++ ["Expected ';' after expression statement"] } := by
  have hall := h
  obtain ⟨h1, h2, h3, h4, h5, h6, h7, h8, h9, h10, h11, h12, h13, h14, h15, hop⟩ := h
  show (stepFns (fnsAt (m + 2))).stmt st = _
  simp only [stepFns, matchTok_mismatch _ _ h1, matchTok_mismatch _ _ h2,
    matchTok_mismatch _ _ h3, matchTok_mismatch _ _ h4, matchTok_mismatch _ _ h5,
    stuck_expr m (-1000) st hall, consume_mismatch _ _ _ h14]

theorem stmt_nofuel1 (st : PState) (h : StuckTok st.token.type) :
    (fnsAt 1).stmt st = .nofuel := by
  obtain ⟨h1, h2, h3, h4, h5, h6, h7, h8, h9, h10, h11, h12, h13, h14, h15, hop⟩ := h
  show (stepFns (fnsAt 0)).stmt st = _
  simp only [stepFns, fnsAt, nofuelFns, matchTok_mismatch _ _ h1, matchTok_mismatch _ _ h2,
    matchTok_mismatch _ _ h3, matchTok_mismatch _ _ h4, matchTok_mismatch _ _ h5]

theorem stmt_nofuel2 (st : PState) (h : StuckTok st.token.type) :
    (fnsAt 2).stmt st = .nofuel := by
  have hall := h
  obtain ⟨h1, h2, h3, h4, h5, h6, h7, h8, h9, h10, h11, h12, h13, h14, h15, hop⟩ := h
  have hexpr : (fnsAt 1).expr (-1000) st = .nofuel := by
    show (stepFns (fnsAt 0)).expr (-1000) st = _
    simp only [stepFns, fnsAt, nofuelFns]
  show (stepFns (fnsAt 1)).stmt st = _
  simp only [stepFns, matchTok_mismatch _ _ h1, matchTok_mismatch _ _ h2,
    matchTok_mismatch _ _ h3, matchTok_mismatch _ _ h4, matchTok_mismatch _ _ h5, hexpr]

theorem stuck_moduleLoop :
    ∀ (n : Nat) (st : PState), StuckTok st.token.type →
      ∀ acc : List Statement, (fnsAt n).moduleLoop acc st = .nofuel := by
  intro n
  induction n with
  | zero => intro st h acc; rfl
  | succ n ih =>
    intro st h acc
    have hEOF : st.token.type ≠ .endOfFile := h.2.2.2.2.2.2.2.2.2.2.2.2.2.2.1
    show (stepFns (fnsAt n)).moduleLoop acc st = _
    simp only [stepFns]
    rw [if_neg hEOF]
    rcases n with _ | (_ | (_ | m))
    · simp [fnsAt, nofuelFns]
    · rw [stmt_nofuel1 st h]
    · rw [stmt_nofuel2 st h]
    · rw [stuck_stmt m st h]
      exact ih { st with errors := st.errors ++ ["Expected ';' after expression statement"] }
        h (acc ++ [.exprStmt .pyNone])

/-! ## Claim theorems -/

/-- Claim C8: `sizeof(Integer(32)) = 32`; an array's size is the element
size times the count and its alignment is the element alignment, so
`sizeof(Array(Integer(32), 4)) = 128`; a tuple's size is the sum over
members of 8 for references and the member size otherwise, its alignment is
the maximum member alignment, and `alignof(Tuple([Integer(32),
Integer(32)])) = 32`. -/
theorem claim_C8_size_alignment :
    UType.sizeof (.integer 32 true) = 32 ∧
    (∀ (u : QType) (c : Nat), UType.sizeof (.array u c) = QType.sizeof u * c) ∧
    (∀ (u : QType) (c : Nat), UType.alignof (.array u c) = QType.alignof u) ∧
    UType.sizeof (.array (.qmk (.integer 32 true) 0) 4) = 128 ∧
    (∀ ts : List QType, UType.sizeof (.tupleT ts) =
      (ts.map (fun t => if QType.isReference t then 8 else QType.sizeof t)).sum) ∧
    (∀ ts : List QType, UType.alignof (.tupleT ts) =
      (ts.map QType.alignof).foldr max 0) ∧
    UType.alignof (.tupleT [.qmk (.integer 32 true) 0, .qmk (.integer 32 true) 0]) = 32 := by
  refine ⟨rfl, fun u c => rfl, fun u c => rfl, rfl, fun ts => ?_, fun ts => ?_, rfl⟩
  · show tupleSizeAcc 0 ts = _
    rw [tupleSizeAcc_eq]
    omega
  · show tupleAlignAcc 0 ts = _
    rw [tupleAlignAcc_eq]
    exact Nat.zero_max _

/-- Claim C7: the integer-width contract is the bit test `w & (w - 1) == 0`,
which also accepts width 0 even though 0 is not a power of two, so
construction does not fail exactly on non-power-of-two widths:
`IntegerType(0, signed)` succeeds. -/
theorem claim_C7_integer_width_zero_accepted :
    IntegerType.make 0 true = .ok (.integer 0 true) ∧ ∀ k : Nat, 0 < 2 ^ k :=
  ⟨rfl, fun k => Nat.pos_pow_of_pos k (by norm_num)⟩

/-- Claim C6: the tokenizer converts a scanned digits-and-underscores run
with Python's `int`, which raises `ValueError` on `"1_"` instead of
stripping the underscore; on well-placed underscores such as `"1_000"` it
yields 1000. -/
theorem claim_C6_underscored_int_literal :
    nextToken ⟨"1_".data, 0, 0⟩ = .error .valueError ∧
    nextToken ⟨"1_000".data, 0, 0⟩ = .ok (⟨.intLiteral, .int 1000, 0⟩, ⟨[], 5, 0⟩) :=
  ⟨rfl, rfl⟩

/-- Claim C10: `"->"` lexes to Arrow, `"<<="` to LShiftEqual, `">="` to
GreaterEqual; and every character recognized by no rule — universally over
the ASCII repertoire, where the embedding's letter/digit dispatch coincides
with CPython's — yields an Error token carrying that character, with the
returned cursor standing on the following character so that the next call
resumes there (shown concretely for `"@7"`: first Error `'@'`, then
IntLiteral 7).  The tokenizer state has no diagnostics channel at all. -/
theorem claim_C10_compound_and_error_tokens :
    nextToken ⟨"->".data, 0, 0⟩ = .ok (⟨.arrow, .none, 0⟩, ⟨[], 2, 0⟩) ∧
    nextToken ⟨"<<=".data, 0, 0⟩ = .ok (⟨.lShiftEqual, .none, 0⟩, ⟨[], 3, 0⟩) ∧
    nextToken ⟨">=".data, 0, 0⟩ = .ok (⟨.greaterEqual, .none, 0⟩, ⟨[], 2, 0⟩) ∧
    nextToken ⟨"@7".data, 0, 0⟩ = .ok (⟨.error, .err '@', 0⟩, ⟨['7'], 1, 0⟩) ∧
    nextToken ⟨['7'], 1, 0⟩ = .ok (⟨.intLiteral, .int 7, 0⟩, ⟨[], 2, 0⟩) ∧
    (∀ (c : Char) (rest : List Char) (idx line : Nat), UnrecognizedAscii c →
        nextToken ⟨c :: rest, idx, line⟩ =
          .ok (⟨.error, .err c, line⟩, ⟨rest, idx + 1, line⟩)) := by
  refine ⟨rfl, rfl, rfl, rfl, rfl, ?_⟩
  intro c rest idx line h
  obtain ⟨-, hsp, hnl, hsingle, hdig, halpha, hund, hq1, hq2, hreg, hm, hgt, hlt⟩ := h
  simp [nextToken, nextTokenAux, hsp, hnl, hsingle, hdig, halpha, hund, hq1, hq2,
    hreg, hm, hgt, hlt]

theorem claim_C10_compound_and_error_tokens_witness :
    UnrecognizedAscii '@' ∧
    nextToken ⟨'@' :: ['7'], 0, 0⟩ = .ok (⟨.error, .err '@', 0⟩, ⟨['7'], 1, 0⟩) :=
  ⟨by decide, claim_C10_compound_and_error_tokens.2.2.2.2.2 '@' ['7'] 0 0 (by decide)⟩

/-- Claim C4: when the current token does not match the expected type,
`consume` appends exactly the given diagnostic at the end of the error list,
returns normally, and leaves the token, tokenizer and symbol table
untouched. -/
theorem claim_C4_missing_token_diagnostic (tp : TokenType) (s : String) (st : PState)
    (h : st.token.type ≠ tp) :
    consume tp s st = .ok (false, { st with errors := st.errors ++ [s] }) :=
  consume_mismatch tp s st h

theorem claim_C4_missing_token_diagnostic_witness :
    demoState.token.type ≠ TokenType.semicolon ∧
    consume .semicolon "Expected ';' after expression statement" demoState =
      .ok (false, { demoState with errors := ["Expected ';' after expression statement"] }) :=
  ⟨by decide, claim_C4_missing_token_diagnostic _ _ _ (by decide)⟩

/-- Claim C9: a string literal opened by a single or double quote runs to
the next occurrence of the same quote with no escape processing; the token
carries the enclosed text verbatim and the opening line, and the line
counter advances by the number of embedded newlines. -/
theorem claim_C9_string_literal (q : Char) (body after : List Char) (idx line : Nat)
    (hq : q = '\'' ∨ q = '"') (hbody : q ∉ body) :
    nextToken ⟨q :: (body ++ q :: after), idx, line⟩ =
      .ok (⟨.stringLiteral, .str body, line⟩,
           ⟨after, idx + body.length + 2, line + body.count '\n'⟩) := by
  have hs := scanStr_spec q body after hbody
  have harith : idx + 1 + body.length + 1 = idx + body.length + 2 := by omega
  rcases hq with rfl | rfl
  · show Except.ok (tokenizeString '\'' ⟨body ++ '\'' :: after, idx + 1, line⟩) = _
    simp only [tokenizeString, hs, List.drop_succ_cons, List.drop_zero, harith]
  · show Except.ok (tokenizeString '"' ⟨body ++ '"' :: after, idx + 1, line⟩) = _
    simp only [tokenizeString, hs, List.drop_succ_cons, List.drop_zero, harith]

theorem claim_C9_string_literal_witness :
    (('\'' = '\'' ∨ ('\'' : Char) = '"') ∧ ('\'' : Char) ∉ "ab\nc".data) ∧
    nextToken ⟨'\'' :: ("ab\nc".data ++ '\'' :: []), 0, 0⟩ =
      .ok (⟨.stringLiteral, .str "ab\nc".data, 0⟩,
           ⟨[], 0 + "ab\nc".data.length + 2, 0 + "ab\nc".data.count '\n'⟩) :=
  ⟨⟨Or.inl rfl, by decide⟩,
   claim_C9_string_literal '\'' "ab\nc".data [] 0 0 (Or.inl rfl) (by decide)⟩

/-- Claim C1: `parse_module` does not terminate on every input: on the
source `")"` the statement dispatcher and `parse_atom` consume nothing,
`consume` only appends a diagnostic, and the module loop runs forever, so
the parse exhausts every fuel bound. -/
theorem claim_C1_parse_module_diverges :
    ∀ fuel : Nat, runParse ")".data fuel = PRes.nofuel := by
  intro fuel
  show (fnsAt fuel).moduleLoop [] rparenState = PRes.nofuel
  exact stuck_moduleLoop fuel rparenState (by decide) []

/-- Claim C2: the parser's operator table binds the `=` token (`Equal`) to
the equality comparison and has no entry for the `==` token (`EqualEqual`),
so `"1 == 2"` is not parsed as an equality expression; instead the `==`
token is never consumed and `"1 == 2;"` makes `parse_module` loop forever. -/
theorem claim_C2_equality_operator_unparsed :
    operatorMap .equal = some ⟨-4, true, .cmpEqual⟩ ∧
    operatorMap .equalEqual = Option.none ∧
    ∀ fuel : Nat, runParse "1 == 2;".data fuel = PRes.nofuel := by
  refine ⟨rfl, rfl, fun fuel => ?_⟩
  show (fnsAt fuel).moduleLoop [] eqeqInitState = PRes.nofuel
  rcases fuel with _ | (_ | (_ | (_ | m)))
  · rfl
  · rfl
  · rfl
  · rfl
  · show (stepFns (fnsAt (m + 3))).moduleLoop [] eqeqInitState = PRes.nofuel
    have h1 : (fnsAt (m + 3)).stmt eqeqInitState =
        .ok (.exprStmt (.constant .intK (.int 1))) eqeqStuckState := rfl
    simp only [stepFns]
    rw [if_neg (show eqeqInitState.token.type ≠ .endOfFile by decide), h1]
    exact stuck_moduleLoop (m + 3) eqeqStuckState (by decide)
      [.exprStmt (.constant .intK (.int 1))]

/-- Claim C3: parsing `"var x: notatype;"` appends the unknown-name
diagnostic, substitutes the Void-qualified placeholder, and produces a
variable declaration binding `x` to that placeholder type. -/
theorem claim_C3_unknown_type_name :
    resultModule (runParse "var x: notatype;".data 20) =
      some (.module [.varDecl (.str "x".data) voidType Option.none]) ∧
    resultErrors (runParse "var x: notatype;".data 20) =
      some ["No type found with name notatype"] :=
  ⟨rfl, rfl⟩

/-- Claim C5: the symbol table stays invariant under parsing — the
constructor seeds one root scope holding only the built-in `i32` entry; the
parse methods return states whose scope stack is exactly the input one (no
push, pop or insertion); and a successful lookup in that table can only
return the built-in signed 32-bit integer entry. -/
theorem claim_C5_symbol_table_invariant :
    (∀ (src : List Char) (st : PState), initState src = .ok st →
        st.symbolTable = initSymbolTable) ∧
    (∀ (fuel : Nat) (st : PState) (m : Statement) (st' : PState),
        parseModule fuel st = .ok m st' → st'.symbolTable = st.symbolTable) ∧
    (∀ (fuel : Nat) (st : PState) (s : Statement) (st' : PState),
        parseStatement fuel st = .ok s st' → st'.symbolTable = st.symbolTable) ∧
    (∀ (key : TokenValue) (e : SymbolEntry),
        searchSymbol key initSymbolTable = some e → e = i32Entry) := by
  refine ⟨?_, ?_, ?_, ?_⟩
  · intro src st h
    unfold initState at h
    split at h
    · cases h; rfl
    · exact Except.noConfusion h
  · intro fuel st m st' h
    exact (presF_fnsAt fuel).2.2.2.2.2.2.2.2.2.2 [] st m st' h
  · intro fuel st s st' h
    exact (presF_fnsAt fuel).2.2.2.2.2.2.2.2.2.1 st s st' h
  · intro key e h
    by_cases hk : key = .str "i32".data
    · subst hk
      have h2 : some i32Entry = some e := h
      cases h2; rfl
    · exfalso
      simp only [initSymbolTable, searchSymbol, searchScope] at h
      rw [if_neg hk] at h
      exact Option.noConfusion h

theorem claim_C5_symbol_table_invariant_witness :
    demoState.symbolTable = initSymbolTable ∧
    demoState.symbolTable = demoState.symbolTable ∧
    ({ rparenState with errors := ["Expected ';' after expression statement"] }).symbolTable
      = rparenState.symbolTable ∧
    i32Entry = i32Entry :=
  ⟨claim_C5_symbol_table_invariant.1 [] demoState rfl,
   claim_C5_symbol_table_invariant.2.1 1 demoState (.module []) demoState rfl,
   claim_C5_symbol_table_invariant.2.2.1 3 rparenState (.exprStmt .pyNone)
     { rparenState with errors := ["Expected ';' after expression statement"] } rfl,
   claim_C5_symbol_table_invariant.2.2.2 (.str "i32".data) i32Entry rfl⟩

end SimpleParser
